import Mathlib

/-!
A shallow embedding of the `stats-server/log_parser` package of the
counter-strike-docker repository: the entities (`entity.py`), the event
hierarchy (`event.py`), the match/round replay state machine (`match.py`),
the immutable reports and per-player stats fold (`report.py`), and the
scoring strategies (`scorer.py`).  Python exceptions (failed `assert`
statements, `IndexError`, `KeyError`) are embedded as `Except` errors;
`datetime` timestamps are embedded as naturals, of which only ordering and
equality are ever used by the code.
-/

/-- A player as in `entity.py`: a display nickname and a stable steam id. -/
structure Player where
  nickname : String
  steamId : Nat
deriving DecidableEq

/-- `Player.__eq__`: players are identified by their Steam ID only. -/
def playerEq (p q : Player) : Bool := p.steamId == q.steamId

/-- `Player.__hash__` hashes the steam id; any function of the steam id alone
witnesses that equal players hash equally. -/
def playerHash (p : Player) : Nat := p.steamId

/-- A weapon as in `entity.py`: identified by its name. -/
structure Weapon where
  name : String
deriving DecidableEq

/-- `Weapon.__eq__`: weapons are compared by name. -/
def weaponEq (w w' : Weapon) : Bool := w.name == w'.name

/-- Teams form the closed set CT / TERRORIST / SPECTATOR (`entity.py`
constructs them only from the team regex, whose alternatives are exactly
these three names; equality is by name). -/
inductive Team where
  | CT
  | TERRORIST
  | SPECTATOR
deriving DecidableEq

/-- The payload of each event subclass of `event.py`. -/
inductive EventData where
  | mapLoading (mapName : String)
  | roundStart
  | roundEnd
  | attack (attacker victim : Player) (weapon : Weapon)
      (damage damageArmor : Nat) (health armor : Int)
  | kill (attacker victim : Player) (weapon : Weapon)
  | matchStarted
  | matchEnd
  | playerJoinsTeam (player : Player) (team : Team)
  | playerDisconnects (player : Player)
  | teamWin (team : Team)
  | server
deriving DecidableEq

/-- An event: a timestamp (`Event._timestamp`) plus its kind-specific data. -/
structure Event where
  timestamp : Nat
  data : EventData
deriving DecidableEq

/-- The Python exceptions that the replayed code can raise: a failed `assert`,
an `IndexError` (empty-list indexing), a `KeyError` (missing dict key). -/
inductive ReplayError where
  | assertionFailed
  | indexError
  | keyError
deriving DecidableEq

/-- The team-composition dict `Dict[Team, List[Player]]` of `match.py`,
which always holds exactly the keys `CT_team` and `Terrorist_team`. -/
structure TeamComposition where
  ct : List Player
  terrorist : List Player
deriving DecidableEq

/-- Python's `list.remove`: drop the first element equal (by `Player.__eq__`)
to the given player; `remove_player_if_present` guards with `in`, so a miss
is a no-op, which collapses to removing the first occurrence if any. -/
def removeFirstPlayer : List Player → Player → List Player
  | [], _ => []
  | q :: rest, p => if playerEq q p then rest else q :: removeFirstPlayer rest p

/-- `MatchInProgress.remove_player_if_present`. -/
def remove_player_if_present (c : TeamComposition) (p : Player) : TeamComposition :=
  { ct := removeFirstPlayer c.ct p, terrorist := removeFirstPlayer c.terrorist p }

/-- `MatchInProgress.add_player_to_team`: first remove the player from every
roster, then append to the named roster; the dict holds only the CT and
TERRORIST keys, so adding to SPECTATOR is a no-op. -/
def add_player_to_team (c : TeamComposition) (team : Team) (p : Player) : TeamComposition :=
  let c1 := remove_player_if_present c p
  match team with
  | .CT => { c1 with ct := c1.ct ++ [p] }
  | .TERRORIST => { c1 with terrorist := c1.terrorist ++ [p] }
  | .SPECTATOR => c1

/-- `RoundInProgress` of `match.py`.  In the Python code the round stores a
reference to the match's `_team_composition` dict; that dict object is
created once per match and only ever mutated in place, so the round's
composition field is at every moment identical to the match's current
composition.  The embedding therefore reads the match's composition at the
moment it is needed (round close) instead of duplicating the alias. -/
structure RoundInProgress where
  events : List Event
  ended : Bool
  winner_team : Option Team
deriving DecidableEq

/-- The timestamp of the last element of a nonempty event list
(`self._events[-1].get_timestamp()`). -/
def lastTimestamp : Event → List Event → Nat
  | e, [] => e.timestamp
  | _, e :: es => lastTimestamp e es

/-- `RoundReport` of `report.py`: the frozen copy made by its constructor. -/
structure RoundReport where
  start_time : Nat
  end_time : Nat
  events : List Event
  composition : TeamComposition
  winner_team : Option Team
deriving DecidableEq

/-- `RoundReport.get_team_composition`: the frozen dict holds only the CT and
TERRORIST keys, so indexing with SPECTATOR raises a `KeyError`. -/
def RoundReport.get_team_composition (r : RoundReport) : Team → Except ReplayError (List Player)
  | .CT => .ok r.composition.ct
  | .TERRORIST => .ok r.composition.terrorist
  | .SPECTATOR => .error .keyError

/-- `RoundReport.get_all_players`: CT roster then TERRORIST roster. -/
def RoundReport.get_all_players (r : RoundReport) : List Player :=
  r.composition.ct ++ r.composition.terrorist

/-- Python's `player in list_of_players`, which compares via `Player.__eq__`. -/
def memPlayer (p : Player) (l : List Player) : Bool :=
  l.any fun q => playerEq q p

/-- `RoundInProgress.get_round_report`, with the composition argument standing
for the aliased match composition at the moment of the call: asserts the round
has ended, reads the first and last recorded event's timestamps (an
`IndexError` on an empty event list), and freezes the report. -/
def RoundInProgress.get_round_report (r : RoundInProgress) (comp : TeamComposition) :
    Except ReplayError RoundReport :=
  if r.ended then
    match r.events with
    | [] => .error .indexError
    | e :: es => .ok ⟨e.timestamp, lastTimestamp e es, e :: es, comp, r.winner_team⟩
  else .error .assertionFailed

/-- `MatchInProgress` of `match.py`. -/
structure MatchInProgress where
  map_name : String := ""
  match_events : List Event := []
  ended_round_reports : List RoundReport := []
  team_composition : TeamComposition := ⟨[], []⟩
  ongoing_round : Option RoundInProgress := none
  started : Bool := false
  ended : Bool := false
deriving DecidableEq

/-- `MatchInProgress.__init__`. -/
def MatchInProgress.init : MatchInProgress := {}

/-- `MatchInProgress.record_round_event`: asserts an ongoing round exists
(any round object is truthy, ended or not) and appends the event to it. -/
def record_round_event (m : MatchInProgress) (e : Event) : Except ReplayError MatchInProgress :=
  match m.ongoing_round with
  | none => .error .assertionFailed
  | some r => .ok { m with ongoing_round := some { r with events := r.events ++ [e] } }

/-- `MatchInProgress.start_new_round`: if a round object exists it must have
ended; then a fresh `RoundInProgress` replaces it. -/
def start_new_round (m : MatchInProgress) : Except ReplayError MatchInProgress :=
  match m.ongoing_round with
  | some r =>
      if r.ended then .ok { m with ongoing_round := some ⟨[], false, none⟩ }
      else .error .assertionFailed
  | none => .ok { m with ongoing_round := some ⟨[], false, none⟩ }

/-- `MatchInProgress.end_current_round`: asserts an ongoing round, marks it
ended, freezes its report with the current composition, and appends the
report; the round object itself stays referenced (Python never clears it). -/
def end_current_round (m : MatchInProgress) : Except ReplayError MatchInProgress :=
  match m.ongoing_round with
  | none => .error .assertionFailed
  | some r =>
      let r1 := { r with ended := true }
      match r1.get_round_report m.team_composition with
      | .error err => .error err
      | .ok rep =>
          .ok { m with ongoing_round := some r1,
                       ended_round_reports := m.ended_round_reports ++ [rep] }

/-- `MatchInProgress.impact_current_round_with`: asserts an ongoing round and
lets the event impact it (`AttackEvent`/`KillEvent.impact_round` record the
event; `TeamWinEvent.impact_round` sets the winner, then records). -/
def impact_current_round_with (m : MatchInProgress) (e : Event) :
    Except ReplayError MatchInProgress :=
  match m.ongoing_round with
  | none => .error .assertionFailed
  | some r =>
      match e.data with
      | .teamWin t =>
          let r1 := { r with winner_team := some t, events := r.events ++ [e] }
          .ok { m with ongoing_round := some r1 }
      | _ => .ok { m with ongoing_round := some { r with events := r.events ++ [e] } }

/-- The `impact_match` dispatch of `event.py`: how one event mutates the
match state, errors standing for the raised Python exceptions. -/
def impact_match (e : Event) (m : MatchInProgress) : Except ReplayError MatchInProgress :=
  match e.data with
  | .mapLoading name =>
      .ok { m with map_name := name, match_events := m.match_events ++ [e] }
  | .roundStart =>
      match start_new_round m with
      | .error err => .error err
      | .ok m1 => record_round_event m1 e
  | .roundEnd =>
      match record_round_event m e with
      | .error err => .error err
      | .ok m1 => end_current_round m1
  | .attack _ _ _ _ _ _ _ => impact_current_round_with m e
  | .kill _ _ _ => impact_current_round_with m e
  | .teamWin _ => impact_current_round_with m e
  | .matchStarted => .ok { m with match_events := m.match_events ++ [e], started := true }
  | .matchEnd => .ok { m with match_events := m.match_events ++ [e], ended := true }
  | .playerJoinsTeam p t =>
      .ok { m with match_events := m.match_events ++ [e],
                   team_composition := add_player_to_team m.team_composition t p }
  | .playerDisconnects p =>
      .ok { m with team_composition := remove_player_if_present m.team_composition p }
  | .server => .ok m

/-- The replay loop of `MatchReportFactory`: fold `impact_match` over the
events, propagating any raised exception. -/
def replayEvents : List Event → MatchInProgress → Except ReplayError MatchInProgress
  | [], m => .ok m
  | e :: es, m =>
      match impact_match e m with
      | .error err => .error err
      | .ok m1 => replayEvents es m1

/-- `MatchReport` of `report.py`. -/
structure MatchReport where
  match_events : List Event
  map_name : String
  rounds : List RoundReport
deriving DecidableEq

/-- `MatchInProgress.get_match_report`: asserts `self._ended or not
self._started`, then freezes the match report. -/
def get_match_report (m : MatchInProgress) : Except ReplayError MatchReport :=
  if m.ended || !m.started then .ok ⟨m.match_events, m.map_name, m.ended_round_reports⟩
  else .error .assertionFailed

/-- `MatchInProgress.get_ended_round_reports`: plain accessor, never fails. -/
def get_ended_round_reports (m : MatchInProgress) : List RoundReport :=
  m.ended_round_reports

/-- `MatchReportFactory.completed_match_report`. -/
def completed_match_report (events : List Event) : Except ReplayError MatchReport :=
  match replayEvents events MatchInProgress.init with
  | .error err => .error err
  | .ok m => get_match_report m

/-- `MatchReportFactory.incomplete_match_round_reports`: replays everything
(exceptions still propagate) and returns the closed round reports. -/
def incomplete_match_round_reports (events : List Event) :
    Except ReplayError (List RoundReport) :=
  match replayEvents events MatchInProgress.init with
  | .error err => .error err
  | .ok m => .ok (get_ended_round_reports m)

/-- `PlayerStats` of `report.py`: all counters default to zero; the per-weapon
damage `defaultdict(int)` is embedded as a total function with default 0,
whose buckets are identified by weapon equality (equality by name). -/
@[ext] structure PlayerStats where
  damage_inflicted : Nat := 0
  damage_received : Nat := 0
  kills : Nat := 0
  deaths : Nat := 0
  rounds_won : Nat := 0
  rounds_lost : Nat := 0
  damage_inflicted_by_weapon : Weapon → Nat := fun _ => 0

/-- `PlayerStats()`: the zero-valued stats record. -/
def PlayerStats.init : PlayerStats := {}

/-- The `impact_player_stats` dispatch of `event.py`: the base class is a
no-op; `AttackEvent`, `KillEvent` and `TeamWinEvent` override it.  A
`TeamWinEvent` whose team is SPECTATOR raises the `KeyError` of
`get_team_composition`. -/
def impact_player_stats (e : Event) (p : Player) (s : PlayerStats) (r : RoundReport) :
    Except ReplayError PlayerStats :=
  match e.data with
  | .attack a v w d _ _ _ =>
      let s1 :=
        if playerEq p a then
          { s with damage_inflicted := s.damage_inflicted + d,
                   damage_inflicted_by_weapon := fun w' =>
                     if weaponEq w' w then s.damage_inflicted_by_weapon w' + d
                     else s.damage_inflicted_by_weapon w' }
        else s
      .ok (if playerEq p v then { s1 with damage_received := s1.damage_received + d } else s1)
  | .kill a v _ =>
      let s1 := if playerEq p a then { s with kills := s.kills + 1 } else s
      .ok (if playerEq p v then { s1 with deaths := s1.deaths + 1 } else s1)
  | .teamWin t =>
      match r.get_team_composition t with
      | .error err => .error err
      | .ok roster =>
          .ok (if memPlayer p roster then { s with rounds_won := s.rounds_won + 1 }
               else if memPlayer p r.get_all_players then
                 { s with rounds_lost := s.rounds_lost + 1 }
               else s)
  | _ => .ok s

/-- The event loop inside `RoundReport.add_to_player_stats`. -/
def foldStats (p : Player) (r : RoundReport) :
    List Event → PlayerStats → Except ReplayError PlayerStats
  | [], s => .ok s
  | e :: es, s =>
      match impact_player_stats e p s r with
      | .error err => .error err
      | .ok s1 => foldStats p r es s1

/-- `RoundReport.add_to_player_stats`: fold every recorded event into the
given accumulator. -/
def RoundReport.add_to_player_stats (r : RoundReport) (p : Player) (s : PlayerStats) :
    Except ReplayError PlayerStats :=
  foldStats p r r.events s

/-- `RoundReport.get_player_stats`: asserts the player belongs to one of the
two rosters, then folds from zero stats. -/
def RoundReport.get_player_stats (r : RoundReport) (p : Player) :
    Except ReplayError PlayerStats :=
  if memPlayer p r.get_all_players then r.add_to_player_stats p PlayerStats.init
  else .error .assertionFailed

/-- Modelled from the spec: `PlayerStats.total_rounds_played` lives in a
revision of `report.py` that is absent from the sources here (only its
callers in `scorer.py` are present).  The spec describes WinRate as rounds
won ÷ total rounds played and TotalRounds as the count of finished rounds a
player was part of, so the total is the sum of the rounds-won and
rounds-lost counters. -/
def PlayerStats.total_rounds_played (s : PlayerStats) : Nat :=
  s.rounds_won + s.rounds_lost

/-- Python dict lookup on a Player-keyed dict: the first entry whose key is
equal by `Player.__eq__`. -/
def dictFind {α : Type} (t : List (Player × α)) (p : Player) : Option α :=
  (t.find? fun kv => playerEq kv.1 p).map Prod.snd

/-- Python dict assignment `t[p] = v`: overwrite the value of an existing
equal key (the stored key object is kept), else append a new entry. -/
def dictInsert {α : Type} (t : List (Player × α)) (p : Player) (v : α) :
    List (Player × α) :=
  if t.any fun kv => playerEq kv.1 p then
    t.map fun kv => if playerEq kv.1 p then (kv.1, v) else kv
  else t ++ [(p, v)]

/-- `defaultdict(int)` accumulation `table[p] += d`, as used by the stats
aggregation tables: read with default 0, add, write back. -/
def accumDamage (t : List (Player × Nat)) (p : Player) (d : Nat) : List (Player × Nat) :=
  dictInsert t p ((dictFind t p).getD 0 + d)

/-- The loop of `WinRateScorer.get_player_scores`: walk the stats table and
assign `rounds_won / rounds_played` to every player with a nonzero round
count, skipping the rest; Python's float division is embedded as exact
rational division. -/
def winRateScoresLoop (acc : List (Player × ℚ)) :
    List (Player × PlayerStats) → List (Player × ℚ)
  | [] => acc
  | (q, st) :: rest =>
      if st.total_rounds_played == 0 then winRateScoresLoop acc rest
      else
        winRateScoresLoop
          (dictInsert acc q ((st.rounds_won : ℚ) / (st.total_rounds_played : ℚ))) rest

/-- `WinRateScorer.get_player_scores` over a collected stats table. -/
def winRateScores (table : List (Player × PlayerStats)) : List (Player × ℚ) :=
  winRateScoresLoop [] table

/-- Reading the returned `defaultdict(int)` score mapping: a player absent
from it gets the default 0 rather than a division failure. -/
def winRateScore (table : List (Player × PlayerStats)) (p : Player) : ℚ :=
  (dictFind (winRateScores table) p).getD 0

/-- Modelled from the spec: the `glicko2` module with `PlayerRating` is
absent from the sources (only its caller `GlickoScorer` is present).  Per the
spec each contested player holds a rating triple (rating value, rating
deviation, volatility) initialized to fixed defaults; the standard Glicko-2
initial values are used for the defaults. -/
structure PlayerRating where
  rating : ℚ := 1500
  rd : ℚ := 350
  vol : ℚ := 6 / 100
deriving DecidableEq

/-- The default initial rating value of a player who never appeared. -/
def defaultRating : ℚ := 1500

/-- The default initial rating deviation of a player who never appeared. -/
def defaultRd : ℚ := 350

/-- `FullScore` of `scorer.py`: sortable value, display string, confidence. -/
structure FullScore where
  value : ℚ
  string : String
  confidence : ℚ
deriving DecidableEq

/-- The interval rendering `[lower, top]` built by
`GlickoScorer.get_full_player_scores` (Python rounds the endpoints to two
decimals for display; the endpoints themselves are what is specified). -/
def formatInterval (lower top : ℚ) : String :=
  "[" ++ toString lower ++ ", " ++ toString top ++ "]"

/-- `GlickoScorer.get_full_player_scores`, given the computed rankings table
and the confidence mapping: value starts as the rating, the 95% interval is
`rating ± 1.96 × rd`, the string renders the interval, and the value is then
replaced by the interval's lower bound before being stored. -/
def glicko_get_full_player_scores (rankings : List (Player × PlayerRating))
    (confidence : Player → ℚ) : List (Player × FullScore) :=
  rankings.map fun kv =>
    let value := kv.2.rating
    let lower := value - 196 / 100 * kv.2.rd
    let top := value + 196 / 100 * kv.2.rd
    (kv.1, ⟨lower, formatInterval lower top, confidence kv.1⟩)

/-- Round-scoped event kinds: the ones `impact_match` routes to the current
round (`RoundEnd` via `record_round_event`, the rest via
`impact_current_round_with`). -/
def isRoundScoped : EventData → Bool
  | .roundEnd => true
  | .attack _ _ _ _ _ _ _ => true
  | .kill _ _ _ => true
  | .teamWin _ => true
  | _ => false

/-- Recognizer for `RoundStart` events. -/
def isRoundStart : EventData → Bool
  | .roundStart => true
  | _ => false

/-- Whether an event references the player as attacker or victim. -/
def involvesPlayer (p : Player) (e : Event) : Bool :=
  match e.data with
  | .attack a v _ _ _ _ _ => playerEq p a || playerEq p v
  | .kill a v _ => playerEq p a || playerEq p v
  | _ => false

/-- Concrete sample players and a weapon for witnesses/counterexamples. -/
def pA : Player := ⟨"A", 111⟩

def pB : Player := ⟨"B", 222⟩

def pC : Player := ⟨"C", 333⟩

def wMp5 : Weapon := ⟨"mp5navy"⟩

/-- A round during which a player joins a team: refutes the claim that a
closed round's composition is the roster as of round start. -/
def c1Events : List Event :=
  [⟨1, .roundStart⟩, ⟨2, .playerJoinsTeam pA .CT⟩, ⟨3, .roundEnd⟩]

/-- A log with rounds but no `Game_Commencing`: the match never starts. -/
def c2Events : List Event :=
  [⟨1, .mapLoading "awp_india"⟩, ⟨2, .roundStart⟩, ⟨3, .roundEnd⟩]

/-- An event sequence with decreasing timestamps. -/
def c3BadEvents : List Event :=
  [⟨2, .roundStart⟩, ⟨1, .roundEnd⟩]

/-- A chronologically ordered two-round log. -/
def c3GoodEvents : List Event :=
  [⟨1, .roundStart⟩, ⟨2, .roundEnd⟩, ⟨3, .roundStart⟩, ⟨4, .roundEnd⟩]

/-- The match report that replaying `c3GoodEvents` freezes. -/
def c3GoodReport : MatchReport :=
  ⟨[], "",
   [⟨1, 2, [⟨1, .roundStart⟩, ⟨2, .roundEnd⟩], ⟨[], []⟩, none⟩,
    ⟨3, 4, [⟨3, .roundStart⟩, ⟨4, .roundEnd⟩], ⟨[], []⟩, none⟩]⟩

/-- A round in which `pA` attacks and then disconnects before round end, so
the frozen composition no longer contains the attacker. -/
def c7Events : List Event :=
  [⟨1, .roundStart⟩, ⟨2, .playerJoinsTeam pA .CT⟩, ⟨3, .playerJoinsTeam pB .TERRORIST⟩,
   ⟨4, .attack pA pB wMp5 13 7 29 70⟩, ⟨5, .playerDisconnects pA⟩, ⟨6, .roundEnd⟩]

/-- A closed round whose events never mention `pC`. -/
def c7WitnessRound : RoundReport :=
  ⟨1, 3, [⟨1, .roundStart⟩, ⟨2, .kill pA pB wMp5⟩, ⟨3, .roundEnd⟩], ⟨[pA], [pB]⟩, none⟩

/-- A collected stats table: `pA` played four rounds winning three, `pB`
never finished a round. -/
def c8Table : List (Player × PlayerStats) :=
  [(pA, { rounds_won := 3, rounds_lost := 1 }), (pB, {})]

/-- A rankings table holding one player at the default initial rating. -/
def c9Rankings : List (Player × PlayerRating) := [(pA, {})]

/-- A concrete match state with one open (unended) round, as produced by
replaying a single `RoundStart`. -/
def c4Round : RoundInProgress := ⟨[⟨1, .roundStart⟩], false, none⟩

/-- The match state after replaying `[⟨1, RoundStart⟩]`. -/
def c4State : MatchInProgress := { ongoing_round := some c4Round }

/-- The match state that processing `⟨2, RoundEnd⟩` from `c4State` yields. -/
def c1WitnessState : MatchInProgress :=
  { ended_round_reports := [⟨1, 2, [⟨1, .roundStart⟩, ⟨2, .roundEnd⟩], ⟨[], []⟩, none⟩],
    ongoing_round := some ⟨[⟨1, .roundStart⟩, ⟨2, .roundEnd⟩], true, none⟩ }

/-- The timestamp-ordering invariant the replay maintains over a bound `b`
on all timestamps seen so far: every closed round report has
`start ≤ end` and `start ≤ b`, the closed starts are non-decreasing, and
the ongoing round's recorded timestamps are sorted, bounded by `b`, and at
or above every closed round's start. -/
def InvOk (m : MatchInProgress) (b : Nat) : Prop :=
  (∀ r ∈ m.ended_round_reports, r.start_time ≤ r.end_time ∧ r.start_time ≤ b) ∧
  List.Sorted (· ≤ ·) (m.ended_round_reports.map RoundReport.start_time) ∧
  ∀ rp, m.ongoing_round = some rp →
    List.Sorted (· ≤ ·) (rp.events.map Event.timestamp) ∧
    (∀ e ∈ rp.events, e.timestamp ≤ b) ∧
    ∀ r ∈ m.ended_round_reports, ∀ e ∈ rp.events, r.start_time ≤ e.timestamp

theorem playerEq_iff (p q : Player) : playerEq p q = true ↔ p.steamId = q.steamId := by
  simp [playerEq]

theorem playerEq_false_symm {p q : Player} (h : playerEq p q = false) :
    playerEq q p = false := by
  simp only [playerEq, beq_eq_false_iff_ne, ne_eq] at h ⊢
  exact fun hq => h hq.symm

theorem replay_append (l1 l2 : List Event) (m : MatchInProgress) :
    replayEvents (l1 ++ l2) m =
      match replayEvents l1 m with
      | .error err => Except.error err
      | .ok m1 => replayEvents l2 m1 := by
  induction l1 generalizing m with
  | nil => rfl
  | cons e es ih =>
      simp only [List.cons_append, replayEvents]
      cases impact_match e m with
      | error err => rfl
      | ok m1 => exact ih m1

/-- Claim C1, counterexample: replaying a round during which `pA` joins CT
shows the closed round's stored composition is `⟨[pA], []⟩` even though the
roster at that round's start (after replaying the `RoundStart` alone) was
empty — a `PlayerJoinsTeam` arriving while a round is open does affect the
currently open round's recorded composition. -/
theorem c1_counterexample :
    (replayEvents [⟨1, .roundStart⟩] MatchInProgress.init).toOption.map
        MatchInProgress.team_composition = some ⟨[], []⟩ ∧
    (incomplete_match_round_reports c1Events).toOption.map
        (fun l => l.map fun r => r.composition) = some [⟨[pA], []⟩] :=
  ⟨rfl, rfl⟩

/-- Claim C1 (amended): the composition stored in a closed round's
RoundReport is the match roster as it stands when the round closes (the
round aliases the live roster dict, frozen only by the report constructor);
a `PlayerJoinsTeam` while a round is open therefore shows up in that round's
eventual report, while the reports of already-closed rounds are never
modified by any later event. -/
theorem c1_composition_frozen_at_close (m m' : MatchInProgress) (e : Event)
    (h : impact_match e m = .ok m') :
    (∃ tl, m'.ended_round_reports = m.ended_round_reports ++ tl) ∧
    (e.data = .roundEnd →
      ∃ rep, m'.ended_round_reports = m.ended_round_reports ++ [rep] ∧
        rep.composition = m.team_composition) ∧
    (∀ q t, e.data = .playerJoinsTeam q t →
      m'.ended_round_reports = m.ended_round_reports) := by
  obtain ⟨ts, d⟩ := e
  cases d with
  | roundStart =>
      cases ho : m.ongoing_round with
      | none =>
          simp [impact_match, start_new_round, record_round_event, ho] at h
          subst h
          exact ⟨⟨[], by simp⟩, by simp, by simp⟩
      | some r =>
          cases hre : r.ended with
          | false =>
              simp [impact_match, start_new_round, record_round_event, ho, hre] at h
          | true =>
              simp [impact_match, start_new_round, record_round_event, ho, hre] at h
              subst h
              exact ⟨⟨[], by simp⟩, by simp, by simp⟩
  | roundEnd =>
      cases ho : m.ongoing_round with
      | none => simp [impact_match, record_round_event, ho] at h
      | some r =>
          cases hre : r.events with
          | nil =>
              simp [impact_match, record_round_event, end_current_round,
                RoundInProgress.get_round_report, ho, hre] at h
              subst h
              exact ⟨⟨_, rfl⟩, fun _ => ⟨_, rfl, rfl⟩, by simp⟩
          | cons e1 es =>
              simp [impact_match, record_round_event, end_current_round,
                RoundInProgress.get_round_report, ho, hre] at h
              subst h
              exact ⟨⟨_, rfl⟩, fun _ => ⟨_, rfl, rfl⟩, by simp⟩
  | attack a v w dmg da hl ar =>
      cases ho : m.ongoing_round with
      | none => simp [impact_match, impact_current_round_with, ho] at h
      | some r =>
          simp [impact_match, impact_current_round_with, ho] at h
          subst h
          exact ⟨⟨[], by simp⟩, by simp, by simp⟩
  | kill a v w =>
      cases ho : m.ongoing_round with
      | none => simp [impact_match, impact_current_round_with, ho] at h
      | some r =>
          simp [impact_match, impact_current_round_with, ho] at h
          subst h
          exact ⟨⟨[], by simp⟩, by simp, by simp⟩
  | teamWin t =>
      cases ho : m.ongoing_round with
      | none => simp [impact_match, impact_current_round_with, ho] at h
      | some r =>
          simp [impact_match, impact_current_round_with, ho] at h
          subst h
          exact ⟨⟨[], by simp⟩, by simp, by simp⟩
  | mapLoading name =>
      simp [impact_match] at h
      subst h
      exact ⟨⟨[], by simp⟩, by simp, by simp⟩
  | matchStarted =>
      simp [impact_match] at h
      subst h
      exact ⟨⟨[], by simp⟩, by simp, by simp⟩
  | matchEnd =>
      simp [impact_match] at h
      subst h
      exact ⟨⟨[], by simp⟩, by simp, by simp⟩
  | playerJoinsTeam q t =>
      simp [impact_match] at h
      subst h
      exact ⟨⟨[], by simp⟩, by simp, fun q' t' _ => rfl⟩
  | playerDisconnects q =>
      simp [impact_match] at h
      subst h
      exact ⟨⟨[], by simp⟩, by simp, by simp⟩
  | server =>
      simp [impact_match] at h
      subst h
      exact ⟨⟨[], by simp⟩, by simp, by simp⟩

/-- Claim C1 witness: closing the open round of `c4State` with a `RoundEnd`
at timestamp 2 freezes exactly one new report whose composition is the
match's current roster. -/
theorem c1_witness :
    impact_match ⟨2, .roundEnd⟩ c4State = .ok c1WitnessState ∧
    ((∃ tl, c1WitnessState.ended_round_reports = c4State.ended_round_reports ++ tl) ∧
     ((⟨2, .roundEnd⟩ : Event).data = .roundEnd →
       ∃ rep, c1WitnessState.ended_round_reports = c4State.ended_round_reports ++ [rep] ∧
         rep.composition = c4State.team_composition) ∧
     (∀ q t, (⟨2, .roundEnd⟩ : Event).data = .playerJoinsTeam q t →
       c1WitnessState.ended_round_reports = c4State.ended_round_reports)) :=
  ⟨rfl, c1_composition_frozen_at_close c4State c1WitnessState ⟨2, .roundEnd⟩ rfl⟩

/-- Claim C2, counterexample: replaying `c2Events` leaves a match that never
reached the Ended state (both flags still false, because no
`Game_Commencing` and no match-end line occurred), yet `get_match_report`
passes its `self._ended or not self._started` assertion and succeeds. -/
theorem c2_counterexample :
    (replayEvents c2Events MatchInProgress.init).toOption.map
        (fun m => (m.started, m.ended)) = some (false, false) ∧
    (completed_match_report c2Events).isOk = true :=
  ⟨rfl, rfl⟩

/-- Claim C2 (amended): `get_match_report` fails its fatal assertion exactly
when the match was started but never ended; a never-started match passes the
`not self._started` disjunct and returns a report; `get_ended_round_reports`
is a plain accessor that always succeeds with the closed round reports. -/
theorem c2_report_assertion_exact (m : MatchInProgress) :
    (get_match_report m = .error .assertionFailed ↔
      m.started = true ∧ m.ended = false) ∧
    get_ended_round_reports m = m.ended_round_reports := by
  refine ⟨?_, rfl⟩
  unfold get_match_report
  cases hs : m.started <;> cases he : m.ended <;> simp

/-- Claim C4: a `RoundStart` processed while the previously opened round has
not been closed fails the `has_ended` assertion of `start_new_round`,
and the failure propagates so that requesting the completed match report
yields the assertion error instead of a report. -/
theorem c4_roundstart_while_open (pre post : List Event) (ts : Nat)
    (m : MatchInProgress) (r : RoundInProgress)
    (hpre : replayEvents pre MatchInProgress.init = .ok m)
    (ho : m.ongoing_round = some r) (hre : r.ended = false) :
    completed_match_report (pre ++ ⟨ts, .roundStart⟩ :: post) =
      .error .assertionFailed := by
  unfold completed_match_report
  rw [replay_append, hpre]
  simp [replayEvents, impact_match, start_new_round, ho, hre]

/-- Claim C4 witness: two `Round_Start` events with no intervening
`Round_End` make the report request fail with the assertion error. -/
theorem c4_witness :
    replayEvents [⟨1, .roundStart⟩] MatchInProgress.init = .ok c4State ∧
    c4State.ongoing_round = some c4Round ∧ c4Round.ended = false ∧
    completed_match_report ([⟨1, .roundStart⟩] ++ ⟨2, .roundStart⟩ :: []) =
      .error .assertionFailed :=
  ⟨rfl, rfl, rfl,
    c4_roundstart_while_open [⟨1, .roundStart⟩] [] 2 c4State c4Round rfl rfl rfl⟩

/-- Claim C5: player equality holds exactly on equal steam ids whatever the
nicknames, the hash agrees exactly when equality does, and accumulating
stats under two captures of the same steam id with different nicknames
merges onto the single entry keyed by the first capture. -/
theorem c5_player_identity (p q : Player) (n1 n2 : String) (i d1 d2 : Nat) :
    (playerEq p q = true ↔ p.steamId = q.steamId) ∧
    (playerEq p q = true ↔ playerHash p = playerHash q) ∧
    accumDamage (accumDamage [] ⟨n1, i⟩ d1) ⟨n2, i⟩ d2 = [(⟨n1, i⟩, d1 + d2)] := by
  refine ⟨by simp [playerEq], by simp [playerEq, playerHash], ?_⟩
  simp [accumDamage, dictInsert, dictFind, playerEq, List.find?]

/-- Claim C9: every entry of the Glicko scorer's full-score table carries the
interval string `[rating - 1.96*rd, rating + 1.96*rd]` and uses that
interval's lower bound as its sortable value; at the default initial rating
triple the value is the default rating minus 1.96 times the default
deviation. -/
theorem c9_rating_interval (rankings : List (Player × PlayerRating))
    (confidence : Player → ℚ) (p : Player) (rt : PlayerRating)
    (hmem : (p, rt) ∈ rankings) :
    ∃ fs : FullScore,
      (p, fs) ∈ glicko_get_full_player_scores rankings confidence ∧
      fs.value = rt.rating - 196 / 100 * rt.rd ∧
      fs.string = formatInterval (rt.rating - 196 / 100 * rt.rd)
        (rt.rating + 196 / 100 * rt.rd) ∧
      (rt = {} → fs.value = defaultRating - 196 / 100 * defaultRd) := by
  refine ⟨⟨rt.rating - 196 / 100 * rt.rd,
    formatInterval (rt.rating - 196 / 100 * rt.rd) (rt.rating + 196 / 100 * rt.rd),
    confidence p⟩, ?_, rfl, rfl, ?_⟩
  · exact List.mem_map_of_mem _ hmem
  · intro hrt
    subst hrt
    norm_num [defaultRating, defaultRd]

/-- Claim C9 witness: the single never-appeared player of `c9Rankings` gets
sort value `1500 - 1.96 * 350 = 814` and the matching interval string. -/
theorem c9_witness :
    (pA, ({} : PlayerRating)) ∈ c9Rankings ∧
    ∃ fs : FullScore,
      (pA, fs) ∈ glicko_get_full_player_scores c9Rankings (fun _ => 1) ∧
      fs.value = ({} : PlayerRating).rating - 196 / 100 * ({} : PlayerRating).rd ∧
      fs.string = formatInterval
        (({} : PlayerRating).rating - 196 / 100 * ({} : PlayerRating).rd)
        (({} : PlayerRating).rating + 196 / 100 * ({} : PlayerRating).rd) ∧
      (({} : PlayerRating) = {} →
        fs.value = defaultRating - 196 / 100 * defaultRd) :=
  ⟨List.mem_singleton.2 rfl,
    c9_rating_interval c9Rankings (fun _ => 1) pA {} (List.mem_singleton.2 rfl)⟩

theorem no_roundstart_keeps_no_round (pre : List Event) (m : MatchInProgress)
    (hpre : ∀ e ∈ pre, isRoundStart e.data = false)
    (hm : m.ongoing_round = none) :
    replayEvents pre m = .error .assertionFailed ∨
      ∃ m1, replayEvents pre m = .ok m1 ∧ m1.ongoing_round = none := by
  induction pre generalizing m with
  | nil => exact .inr ⟨m, rfl, hm⟩
  | cons e es ih =>
      have hes : ∀ e' ∈ es, isRoundStart e'.data = false :=
        fun e' he' => hpre e' (List.mem_cons_of_mem e he')
      obtain ⟨ts, d⟩ := e
      cases d with
      | roundStart => exact absurd (hpre _ (List.mem_cons_self _ _)) (by simp [isRoundStart])
      | roundEnd =>
          left
          simp [replayEvents, impact_match, record_round_event, hm]
      | attack a v w dmg da hl ar =>
          left
          simp [replayEvents, impact_match, impact_current_round_with, hm]
      | kill a v w =>
          left
          simp [replayEvents, impact_match, impact_current_round_with, hm]
      | teamWin t =>
          left
          simp [replayEvents, impact_match, impact_current_round_with, hm]
      | mapLoading name =>
          simp only [replayEvents, impact_match]
          exact ih _ hes hm
      | matchStarted =>
          simp only [replayEvents, impact_match]
          exact ih _ hes hm
      | matchEnd =>
          simp only [replayEvents, impact_match]
          exact ih _ hes hm
      | playerJoinsTeam q t =>
          simp only [replayEvents, impact_match]
          exact ih _ hes hm
      | playerDisconnects q =>
          simp only [replayEvents, impact_match]
          exact ih _ hes hm
      | server =>
          simp only [replayEvents, impact_match]
          exact ih _ hes hm

/-- Claim C10: a round-scoped event (Attack, Kill, TeamWin or RoundEnd)
occurring before any RoundStart has opened a round makes the replay fail on
the missing-open-round assertion instead of skipping or recording the
event. -/
theorem c10_round_event_before_start (pre post : List Event) (e : Event)
    (hpre : ∀ e' ∈ pre, isRoundStart e'.data = false)
    (he : isRoundScoped e.data = true) :
    replayEvents (pre ++ e :: post) MatchInProgress.init =
      .error .assertionFailed := by
  rw [replay_append]
  rcases no_roundstart_keeps_no_round pre MatchInProgress.init hpre rfl with
    herr | ⟨m1, hok, hnone⟩
  · rw [herr]
  · rw [hok]
    obtain ⟨ts, d⟩ := e
    cases d <;> simp [isRoundScoped] at he <;>
      simp [replayEvents, impact_match, record_round_event,
        impact_current_round_with, hnone]

/-- Claim C10 witness: a lone Kill event with no preceding RoundStart makes
the replay fail with the assertion error. -/
theorem c10_witness :
    (∀ e' ∈ ([] : List Event), isRoundStart e'.data = false) ∧
    isRoundScoped (Event.mk 1 (.kill pA pB wMp5)).data = true ∧
    replayEvents ([] ++ ⟨1, .kill pA pB wMp5⟩ :: []) MatchInProgress.init =
      .error .assertionFailed :=
  ⟨fun e' he' => absurd he' (List.not_mem_nil e'), rfl,
    c10_round_event_before_start [] [] ⟨1, .kill pA pB wMp5⟩
      (fun e' he' => absurd he' (List.not_mem_nil e')) rfl⟩

/-- Claim C6: folding an Attack event adds its damage to P's inflicted total
and to the bucket of its weapon exactly when P equals the attacker, and to
P's received total exactly when P equals the victim; a Kill event increments
P's kills exactly when P is the attacker and P's deaths exactly when P is
the victim; all other counters are untouched. -/
theorem c6_attack_kill_effects (p a v : Player) (w : Weapon) (d da : Nat)
    (hl ar : Int) (ts ts' : Nat) (s : PlayerStats) (r : RoundReport) :
    impact_player_stats ⟨ts, .attack a v w d da hl ar⟩ p s r =
      .ok { s with
        damage_inflicted := s.damage_inflicted + (if playerEq p a then d else 0),
        damage_received := s.damage_received + (if playerEq p v then d else 0),
        damage_inflicted_by_weapon := fun w' =>
          s.damage_inflicted_by_weapon w' +
            (if playerEq p a && weaponEq w' w then d else 0) } ∧
    impact_player_stats ⟨ts', .kill a v w⟩ p s r =
      .ok { s with
        kills := s.kills + (if playerEq p a then 1 else 0),
        deaths := s.deaths + (if playerEq p v then 1 else 0) } := by
  constructor
  · cases hpa : playerEq p a <;> cases hpv : playerEq p v <;>
      · simp only [impact_player_stats, hpa, hpv, if_true, if_false,
          Bool.false_and, Bool.true_and, Except.ok.injEq]
        ext w' <;> simp <;> split <;> simp
  · cases hpa : playerEq p a <;> cases hpv : playerEq p v <;>
      · simp only [impact_player_stats, hpa, hpv, if_true, if_false,
          Except.ok.injEq]
        try (ext w' <;> simp)

theorem memPlayer_append (p : Player) (l1 l2 : List Player) :
    memPlayer p (l1 ++ l2) = (memPlayer p l1 || memPlayer p l2) := by
  simp [memPlayer, List.any_append]

theorem uninvolved_impact (e : Event) (p : Player) (s s' : PlayerStats)
    (r : RoundReport)
    (hmem : memPlayer p r.get_all_players = false)
    (hinv : involvesPlayer p e = false)
    (h : impact_player_stats e p s r = .ok s') : s' = s := by
  obtain ⟨ts, d⟩ := e
  cases d with
  | attack a v w dmg da hl ar =>
      simp only [involvesPlayer, Bool.or_eq_false_iff] at hinv
      simp only [impact_player_stats, hinv.1, hinv.2, if_false] at h
      exact (Except.ok.inj h).symm
  | kill a v w =>
      simp only [involvesPlayer, Bool.or_eq_false_iff] at hinv
      simp only [impact_player_stats, hinv.1, hinv.2, if_false] at h
      exact (Except.ok.inj h).symm
  | teamWin t =>
      have hboth : memPlayer p r.composition.ct = false ∧
          memPlayer p r.composition.terrorist = false := by
        have := hmem
        rw [RoundReport.get_all_players, memPlayer_append,
          Bool.or_eq_false_iff] at this
        exact this
      cases t with
      | CT =>
          simp only [impact_player_stats, RoundReport.get_team_composition,
            hboth.1, hmem, if_false] at h
          exact (Except.ok.inj h).symm
      | TERRORIST =>
          simp only [impact_player_stats, RoundReport.get_team_composition,
            hboth.2, hmem, if_false] at h
          exact (Except.ok.inj h).symm
      | SPECTATOR =>
          simp only [impact_player_stats, RoundReport.get_team_composition] at h
          cases h
  | mapLoading name => exact (Except.ok.inj h).symm
  | roundStart => exact (Except.ok.inj h).symm
  | roundEnd => exact (Except.ok.inj h).symm
  | matchStarted => exact (Except.ok.inj h).symm
  | matchEnd => exact (Except.ok.inj h).symm
  | playerJoinsTeam q t => exact (Except.ok.inj h).symm
  | playerDisconnects q => exact (Except.ok.inj h).symm
  | server => exact (Except.ok.inj h).symm

theorem uninvolved_fold (r : RoundReport) (p : Player) (evs : List Event)
    (s s' : PlayerStats)
    (hmem : memPlayer p r.get_all_players = false)
    (hinv : ∀ e ∈ evs, involvesPlayer p e = false)
    (h : foldStats p r evs s = .ok s') : s' = s := by
  induction evs generalizing s with
  | nil => exact Except.ok.inj h.symm
  | cons e es ih =>
      simp only [foldStats] at h
      cases himp : impact_player_stats e p s r with
      | error err => rw [himp] at h; cases h
      | ok s1 =>
          rw [himp] at h
          have hs1 : s1 = s :=
            uninvolved_impact e p s s1 r hmem (hinv e (List.mem_cons_self _ _)) himp
          subst hs1
          exact ih _ (fun e' he' => hinv e' (List.mem_cons_of_mem e he')) h

/-- Claim C7, counterexample: replaying `c7Events` produces one closed round
whose frozen rosters no longer contain the attacker `pA` (who disconnected
before round end), yet folding that round's events for `pA` yields 13
inflicted damage, not the zero-valued stats; `get_player_stats` for `pA`
fails its roster assertion instead of returning zero stats. -/
theorem c7_counterexample :
    (incomplete_match_round_reports c7Events).toOption.map
        (fun l => l.map fun r =>
          (memPlayer pA r.get_all_players,
           (r.add_to_player_stats pA PlayerStats.init).toOption.map
             PlayerStats.damage_inflicted,
           (r.get_player_stats pA).isOk)) =
      some [(false, some 13, false)] ∧ (13 : Nat) ≠ 0 :=
  ⟨rfl, by decide⟩

/-- Claim C7 (amended): for a player on neither roster of a round report,
`get_player_stats` fails its membership assertion; the raw event fold
started from zero stats leaves every counter at zero provided the player is
referenced as attacker or victim by no recorded event of the round. -/
theorem c7_nonroster_fold (r : RoundReport) (p : Player) (s' : PlayerStats)
    (hmem : memPlayer p r.get_all_players = false)
    (hinv : ∀ e ∈ r.events, involvesPlayer p e = false) :
    r.get_player_stats p = .error .assertionFailed ∧
    (r.add_to_player_stats p PlayerStats.init = .ok s' →
      s'.damage_inflicted = 0 ∧ s'.damage_received = 0 ∧ s'.kills = 0 ∧
      s'.deaths = 0 ∧ s'.rounds_won = 0 ∧ s'.rounds_lost = 0 ∧
      ∀ w, s'.damage_inflicted_by_weapon w = 0) := by
  constructor
  · simp [RoundReport.get_player_stats, hmem]
  · intro h
    have hs : s' = PlayerStats.init :=
      uninvolved_fold r p r.events PlayerStats.init s' hmem hinv h
    subst hs
    exact ⟨rfl, rfl, rfl, rfl, rfl, rfl, fun w => rfl⟩

/-- Claim C7 witness: `pC` is on neither roster of `c7WitnessRound` and is
involved in none of its events, so the assertion fires and the raw fold
returns the zero stats. -/
theorem c7_witness :
    memPlayer pC c7WitnessRound.get_all_players = false ∧
    (∀ e ∈ c7WitnessRound.events, involvesPlayer pC e = false) ∧
    (c7WitnessRound.get_player_stats pC = .error .assertionFailed ∧
     (c7WitnessRound.add_to_player_stats pC PlayerStats.init =
        .ok PlayerStats.init →
      PlayerStats.init.damage_inflicted = 0 ∧
      PlayerStats.init.damage_received = 0 ∧ PlayerStats.init.kills = 0 ∧
      PlayerStats.init.deaths = 0 ∧ PlayerStats.init.rounds_won = 0 ∧
      PlayerStats.init.rounds_lost = 0 ∧
      ∀ w, PlayerStats.init.damage_inflicted_by_weapon w = 0)) :=
  ⟨by decide, by decide,
    c7_nonroster_fold c7WitnessRound pC PlayerStats.init (by decide) (by decide)⟩

theorem dictFind_eq_none {α : Type} (t : List (Player × α)) (p : Player)
    (h : ∀ kv ∈ t, playerEq kv.1 p = false) : dictFind t p = none := by
  unfold dictFind
  rw [List.find?_eq_none.2]
  · rfl
  · intro kv hkv
    simp [h kv hkv]

theorem dictInsert_forall_keys {α : Type} (P : Player → Prop)
    (t : List (Player × α)) (q : Player) (v : α)
    (ht : ∀ kv ∈ t, P kv.1) (hq : P q) :
    ∀ kv ∈ dictInsert t q v, P kv.1 := by
  intro kv hkv
  unfold dictInsert at hkv
  by_cases hc : t.any fun kv => playerEq kv.1 q
  · rw [if_pos hc] at hkv
    obtain ⟨kv0, hkv0, heq⟩ := List.mem_map.1 hkv
    by_cases h0 : playerEq kv0.1 q = true
    · rw [if_pos h0] at heq
      have : kv.1 = kv0.1 := by rw [← heq]
      rw [this]
      exact ht kv0 hkv0
    · rw [if_neg h0] at heq
      rw [← heq]
      exact ht kv0 hkv0
  · rw [if_neg hc] at hkv
    rcases List.mem_append.1 hkv with hl | hr
    · exact ht kv hl
    · rw [List.mem_singleton.1 hr]
      exact hq

theorem dictFind_insert_ne {α : Type} (t : List (Player × α)) (q p : Player)
    (v : α) (h : playerEq q p = false) :
    dictFind (dictInsert t q v) p = dictFind t p := by
  unfold dictInsert
  by_cases hc : t.any fun kv => playerEq kv.1 q
  · rw [if_pos hc]
    clear hc
    induction t with
    | nil => rfl
    | cons kv rest ih =>
        unfold dictFind
        simp only [List.map_cons, List.find?_cons]
        by_cases hkq : playerEq kv.1 q = true
        · have hkp : playerEq kv.1 p = false := by
            cases hp : playerEq kv.1 p
            · rfl
            · exfalso
              have h1 := (playerEq_iff kv.1 p).1 hp
              have h2 := (playerEq_iff kv.1 q).1 hkq
              have h3 : playerEq q p = true := (playerEq_iff q p).2 (h2 ▸ h1)
              rw [h3] at h
              cases h
          simp only [hkq, if_true, hkp]
          exact ih
        · have hkq' : playerEq kv.1 q = false := Bool.eq_false_iff.2 hkq
          by_cases hkp : playerEq kv.1 p = true
          · simp [hkq', hkp]
          · have hkp' : playerEq kv.1 p = false := Bool.eq_false_iff.2 hkp
            simp only [hkq', hkp', Bool.false_eq_true, if_false]
            exact ih
  · rw [if_neg hc]
    unfold dictFind
    rw [List.find?_append]
    cases hfind : List.find? (fun kv => playerEq kv.1 p) t with
    | some kv => rfl
    | none =>
        simp only [Option.none_or]
        simp [List.find?, h]

theorem winRateLoop_skip (table : List (Player × PlayerStats))
    (acc : List (Player × ℚ)) (p : Player)
    (hT : ∀ kv ∈ table, playerEq kv.1 p = false) :
    dictFind (winRateScoresLoop acc table) p = dictFind acc p := by
  induction table generalizing acc with
  | nil => rfl
  | cons kv rest ih =>
      obtain ⟨q, st⟩ := kv
      have hq : playerEq q p = false := hT (q, st) (List.mem_cons_self _ _)
      have hrest : ∀ kv ∈ rest, playerEq kv.1 p = false :=
        fun kv hkv => hT kv (List.mem_cons_of_mem _ hkv)
      unfold winRateScoresLoop
      by_cases h0 : st.total_rounds_played == 0
      · rw [if_pos h0]
        exact ih acc hrest
      · rw [if_neg h0]
        rw [ih _ hrest]
        exact dictFind_insert_ne acc q p _ hq

theorem dictFind_insert_self {α : Type} (t : List (Player × α)) (p : Player)
    (v : α) (ht : ∀ kv ∈ t, playerEq kv.1 p = false) :
    dictFind (dictInsert t p v) p = some v := by
  unfold dictInsert
  have hany : (t.any fun kv => playerEq kv.1 p) = false := by
    rw [List.any_eq_false]
    intro kv hkv
    simp [ht kv hkv]
  rw [hany]
  simp only [Bool.false_eq_true, if_false]
  unfold dictFind
  rw [List.find?_append, List.find?_eq_none.2, Option.none_or]
  · simp [List.find?, (playerEq_iff p p).2 rfl]
  · intro kv hkv
    simp [ht kv hkv]

theorem winRateLoop_find (table : List (Player × PlayerStats))
    (acc : List (Player × ℚ)) (p : Player) (st : PlayerStats)
    (hmem : (p, st) ∈ table)
    (hdist : table.Pairwise fun a b => playerEq a.1 b.1 = false)
    (hacc : ∀ kv ∈ acc, playerEq kv.1 p = false) :
    dictFind (winRateScoresLoop acc table) p =
      if st.total_rounds_played = 0 then none
      else some ((st.rounds_won : ℚ) / (st.total_rounds_played : ℚ)) := by
  induction table generalizing acc with
  | nil => cases hmem
  | cons kv rest ih =>
      obtain ⟨q, st'⟩ := kv
      rw [List.pairwise_cons] at hdist
      rcases List.mem_cons.1 hmem with hhead | htail
      · injection hhead with hp hst
        subst hp
        subst hst
        have hrest : ∀ kv ∈ rest, playerEq kv.1 p = false := fun kv hkv =>
          playerEq_false_symm (hdist.1 kv hkv)
        unfold winRateScoresLoop
        by_cases h0 : st.total_rounds_played = 0
        · rw [if_pos (by simpa using h0), winRateLoop_skip rest acc p hrest,
            dictFind_eq_none acc p hacc, if_pos h0]
        · rw [if_neg (by simpa using h0), winRateLoop_skip rest _ p hrest,
            dictFind_insert_self acc p _ hacc, if_neg h0]
      · have hq : playerEq q p = false := hdist.1 (p, st) htail
        unfold winRateScoresLoop
        by_cases h0 : st'.total_rounds_played = 0
        · rw [if_pos (by simpa using h0)]
          exact ih acc htail hdist.2 hacc
        · rw [if_neg (by simpa using h0)]
          refine ih _ htail hdist.2 ?_
          exact dictInsert_forall_keys (fun k => playerEq k p = false) acc q _
            hacc hq

/-- Claim C8: over a collected stats table with one entry per player, the
WinRate scorer assigns a player with at least one finished round the score
rounds-won over rounds-played, and reading the returned default-0 mapping
for a player with zero rounds gives 0 rather than a division failure. -/
theorem c8_winrate (table : List (Player × PlayerStats)) (p : Player)
    (st : PlayerStats) (hmem : (p, st) ∈ table)
    (hdist : table.Pairwise fun a b => playerEq a.1 b.1 = false) :
    (st.total_rounds_played ≠ 0 →
      winRateScore table p =
        (st.rounds_won : ℚ) / (st.total_rounds_played : ℚ)) ∧
    (st.total_rounds_played = 0 → winRateScore table p = 0) := by
  have h := winRateLoop_find table [] p st hmem hdist
    (by intro kv hkv; cases hkv)
  constructor
  · intro hne
    rw [winRateScore, winRateScores, h, if_neg hne]
    rfl
  · intro hz
    rw [winRateScore, winRateScores, h, if_pos hz]
    rfl

/-- Claim C8 witness: in `c8Table`, `pA` (3 wins, 1 loss) scores 3/4 and
`pB` (no finished rounds) scores 0. -/
theorem c8_witness :
    ((pA, ({ rounds_won := 3, rounds_lost := 1 } : PlayerStats)) ∈ c8Table) ∧
    ((pB, ({} : PlayerStats)) ∈ c8Table) ∧
    winRateScore c8Table pA = 3 / 4 ∧ winRateScore c8Table pB = 0 := by
  have hdist : c8Table.Pairwise fun a b => playerEq a.1 b.1 = false := by
    unfold c8Table
    refine List.pairwise_cons.2 ⟨?_, List.pairwise_singleton _ _⟩
    intro b hb
    rw [List.mem_singleton.1 hb]
    decide
  have h1 := c8_winrate c8Table pA { rounds_won := 3, rounds_lost := 1 }
    (List.mem_cons_self _ _) hdist
  have h2 := c8_winrate c8Table pB {}
    (List.mem_cons_of_mem _ (List.mem_cons_self _ _)) hdist
  refine ⟨List.mem_cons_self _ _,
    List.mem_cons_of_mem _ (List.mem_cons_self _ _), ?_, h2.2 rfl⟩
  rw [h1.1 (by decide)]
  norm_num [PlayerStats.total_rounds_played]

theorem InvOk_mono {m : MatchInProgress} {b b' : Nat} (hI : InvOk m b)
    (hb : b ≤ b') : InvOk m b' := by
  obtain ⟨h1, h2, h3⟩ := hI
  refine ⟨fun r hr => ⟨(h1 r hr).1, le_trans (h1 r hr).2 hb⟩, h2, fun rp hrp => ?_⟩
  obtain ⟨s1, s2, s3⟩ := h3 rp hrp
  exact ⟨s1, fun e he => le_trans (s2 e he) hb, s3⟩

theorem sorted_append_singleton {l : List Nat} {t : Nat}
    (hl : List.Sorted (· ≤ ·) l) (ht : ∀ x ∈ l, x ≤ t) :
    List.Sorted (· ≤ ·) (l ++ [t]) := by
  rw [List.Sorted, List.pairwise_append]
  exact ⟨hl, List.pairwise_singleton _ _,
    fun x hx y hy => (List.mem_singleton.1 hy) ▸ ht x hx⟩

theorem sorted_head_le {x : Nat} {l : List Nat}
    (h : List.Sorted (· ≤ ·) (x :: l)) : ∀ y ∈ x :: l, x ≤ y := by
  intro y hy
  rcases List.mem_cons.1 hy with rfl | hy'
  · exact le_refl y
  · exact List.rel_of_sorted_cons h y hy'

theorem lastTimestamp_mem (e : Event) (es : List Event) :
    ∃ x ∈ e :: es, lastTimestamp e es = x.timestamp := by
  induction es generalizing e with
  | nil => exact ⟨e, List.mem_singleton.2 rfl, rfl⟩
  | cons e1 es ih =>
      obtain ⟨x, hx, hlast⟩ := ih e1
      exact ⟨x, List.mem_cons_of_mem e hx, hlast⟩

theorem head_le_lastTimestamp (e : Event) (es : List Event)
    (h : List.Sorted (· ≤ ·) ((e :: es).map Event.timestamp)) :
    e.timestamp ≤ lastTimestamp e es := by
  obtain ⟨x, hx, hlast⟩ := lastTimestamp_mem e es
  rw [hlast]
  exact sorted_head_le h x.timestamp (List.mem_map_of_mem Event.timestamp hx)

theorem impact_preserves_inv (e : Event) (m m' : MatchInProgress) (b : Nat)
    (hI : InvOk m b) (hb : b ≤ e.timestamp)
    (h : impact_match e m = .ok m') : InvOk m' e.timestamp := by
  have hIb : InvOk m e.timestamp := InvOk_mono hI hb
  obtain ⟨ts, d⟩ := e
  cases d with
  | mapLoading name =>
      simp [impact_match] at h
      subst h
      exact hIb
  | matchStarted =>
      simp [impact_match] at h
      subst h
      exact hIb
  | matchEnd =>
      simp [impact_match] at h
      subst h
      exact hIb
  | playerJoinsTeam q t =>
      simp [impact_match] at h
      subst h
      exact hIb
  | playerDisconnects q =>
      simp [impact_match] at h
      subst h
      exact hIb
  | server =>
      simp [impact_match] at h
      subst h
      exact hIb
  | roundStart =>
      have hfresh :
          InvOk { m with ongoing_round := some (RoundInProgress.mk [⟨ts, .roundStart⟩] false none) } ts := by
        refine ⟨hIb.1, hIb.2.1, fun rp hrp => ?_⟩
        injection hrp with hrp
        subst hrp
        refine ⟨by simp, by simp, ?_⟩
        intro r hr x hx
        rw [List.mem_singleton.1 hx]
        exact (hIb.1 r hr).2
      cases ho : m.ongoing_round with
      | none =>
          simp [impact_match, start_new_round, record_round_event, ho] at h
          subst h
          exact hfresh
      | some r =>
          cases hre : r.ended with
          | false =>
              simp [impact_match, start_new_round, record_round_event, ho, hre] at h
          | true =>
              simp [impact_match, start_new_round, record_round_event, ho, hre] at h
              subst h
              exact hfresh
  | attack a v w dmg da hl ar =>
      cases ho : m.ongoing_round with
      | none => simp [impact_match, impact_current_round_with, ho] at h
      | some r =>
          obtain ⟨hs1, hs2, hs3⟩ := hI.2.2 r ho
          simp [impact_match, impact_current_round_with, ho] at h
          subst h
          refine ⟨hIb.1, hIb.2.1, fun rp hrp => ?_⟩
          injection hrp with hrp
          subst hrp
          refine ⟨?_, ?_, ?_⟩
          · rw [show r.events ++ [(⟨ts, .attack a v w dmg da hl ar⟩ : Event)] =
                r.events ++ [⟨ts, .attack a v w dmg da hl ar⟩] from rfl,
              List.map_append]
            refine sorted_append_singleton hs1 ?_
            intro x hx
            obtain ⟨ev, hev, rfl⟩ := List.mem_map.1 hx
            exact le_trans (hs2 ev hev) hb
          · intro x hx
            rcases List.mem_append.1 hx with hx1 | hx2
            · exact le_trans (hs2 x hx1) hb
            · rw [List.mem_singleton.1 hx2]
          · intro r' hr' x hx
            rcases List.mem_append.1 hx with hx1 | hx2
            · exact hs3 r' hr' x hx1
            · rw [List.mem_singleton.1 hx2]
              exact (hIb.1 r' hr').2
  | kill a v w =>
      cases ho : m.ongoing_round with
      | none => simp [impact_match, impact_current_round_with, ho] at h
      | some r =>
          obtain ⟨hs1, hs2, hs3⟩ := hI.2.2 r ho
          simp [impact_match, impact_current_round_with, ho] at h
          subst h
          refine ⟨hIb.1, hIb.2.1, fun rp hrp => ?_⟩
          injection hrp with hrp
          subst hrp
          refine ⟨?_, ?_, ?_⟩
          · rw [List.map_append]
            refine sorted_append_singleton hs1 ?_
            intro x hx
            obtain ⟨ev, hev, rfl⟩ := List.mem_map.1 hx
            exact le_trans (hs2 ev hev) hb
          · intro x hx
            rcases List.mem_append.1 hx with hx1 | hx2
            · exact le_trans (hs2 x hx1) hb
            · rw [List.mem_singleton.1 hx2]
          · intro r' hr' x hx
            rcases List.mem_append.1 hx with hx1 | hx2
            · exact hs3 r' hr' x hx1
            · rw [List.mem_singleton.1 hx2]
              exact (hIb.1 r' hr').2
  | teamWin t =>
      cases ho : m.ongoing_round with
      | none => simp [impact_match, impact_current_round_with, ho] at h
      | some r =>
          obtain ⟨hs1, hs2, hs3⟩ := hI.2.2 r ho
          simp [impact_match, impact_current_round_with, ho] at h
          subst h
          refine ⟨hIb.1, hIb.2.1, fun rp hrp => ?_⟩
          injection hrp with hrp
          subst hrp
          refine ⟨?_, ?_, ?_⟩
          · rw [List.map_append]
            refine sorted_append_singleton hs1 ?_
            intro x hx
            obtain ⟨ev, hev, rfl⟩ := List.mem_map.1 hx
            exact le_trans (hs2 ev hev) hb
          · intro x hx
            rcases List.mem_append.1 hx with hx1 | hx2
            · exact le_trans (hs2 x hx1) hb
            · rw [List.mem_singleton.1 hx2]
          · intro r' hr' x hx
            rcases List.mem_append.1 hx with hx1 | hx2
            · exact hs3 r' hr' x hx1
            · rw [List.mem_singleton.1 hx2]
              exact (hIb.1 r' hr').2
  | roundEnd =>
      cases ho : m.ongoing_round with
      | none => simp [impact_match, record_round_event, ho] at h
      | some r =>
          obtain ⟨hs1, hs2, hs3⟩ := hI.2.2 r ho
          cases hre : r.events with
          | nil =>
              simp [impact_match, record_round_event, end_current_round,
                RoundInProgress.get_round_report, ho, hre] at h
              subst h
              refine ⟨?_, ?_, fun rp hrp => ?_⟩
              · intro r' hr'
                rcases List.mem_append.1 hr' with hr1 | hr2
                · exact ⟨(hIb.1 r' hr1).1, (hIb.1 r' hr1).2⟩
                · rw [List.mem_singleton.1 hr2]
                  exact ⟨le_refl ts, le_refl ts⟩
              · rw [List.map_append]
                refine sorted_append_singleton hIb.2.1 ?_
                intro x hx
                obtain ⟨r', hr', rfl⟩ := List.mem_map.1 hx
                exact (hIb.1 r' hr').2
              · injection hrp with hrp
                subst hrp
                refine ⟨by simp, by simp, ?_⟩
                intro r' hr' x hx
                rw [List.mem_singleton.1 hx]
                rcases List.mem_append.1 hr' with hr1 | hr2
                · exact (hIb.1 r' hr1).2
                · rw [List.mem_singleton.1 hr2]
          | cons e1 es1 =>
              rw [hre] at hs1 hs2 hs3
              simp [impact_match, record_round_event, end_current_round,
                RoundInProgress.get_round_report, ho, hre] at h
              subst h
              have hsorted' : List.Sorted (· ≤ ·)
                  ((e1 :: (es1 ++ [⟨ts, .roundEnd⟩])).map Event.timestamp) := by
                rw [show e1 :: (es1 ++ [(⟨ts, .roundEnd⟩ : Event)]) =
                    (e1 :: es1) ++ [⟨ts, .roundEnd⟩] from rfl, List.map_append]
                refine sorted_append_singleton hs1 ?_
                intro x hx
                obtain ⟨ev, hev, rfl⟩ := List.mem_map.1 hx
                exact le_trans (hs2 ev hev) hb
              have hbound' : ∀ x ∈ e1 :: (es1 ++ [(⟨ts, .roundEnd⟩ : Event)]),
                  x.timestamp ≤ ts := by
                intro x hx
                rcases List.mem_append.1
                  (by simpa using hx :
                    x ∈ (e1 :: es1) ++ [(⟨ts, .roundEnd⟩ : Event)]) with hx1 | hx2
                · exact le_trans (hs2 x hx1) hb
                · rw [List.mem_singleton.1 hx2]
              have hhead_le : ∀ x ∈ e1 :: (es1 ++ [(⟨ts, .roundEnd⟩ : Event)]),
                  e1.timestamp ≤ x.timestamp := by
                intro x hx
                exact sorted_head_le hsorted' x.timestamp
                  (List.mem_map_of_mem Event.timestamp hx)
              have hstart_le_end : e1.timestamp ≤
                  lastTimestamp e1 (es1 ++ [⟨ts, .roundEnd⟩]) :=
                head_le_lastTimestamp e1 (es1 ++ [⟨ts, .roundEnd⟩]) hsorted'
              refine ⟨?_, ?_, fun rp hrp => ?_⟩
              · intro r' hr'
                rcases List.mem_append.1 hr' with hr1 | hr2
                · exact ⟨(hIb.1 r' hr1).1, (hIb.1 r' hr1).2⟩
                · rw [List.mem_singleton.1 hr2]
                  exact ⟨hstart_le_end,
                    le_trans (hs2 e1 (List.mem_cons_self _ _)) hb⟩
              · rw [List.map_append]
                refine sorted_append_singleton hIb.2.1 ?_
                intro x hx
                obtain ⟨r', hr', rfl⟩ := List.mem_map.1 hx
                exact hs3 r' hr' e1 (List.mem_cons_self _ _)
              · injection hrp with hrp
                subst hrp
                refine ⟨hsorted', hbound', ?_⟩
                intro r' hr' x hx
                rcases List.mem_append.1 hr' with hr1 | hr2
                · rcases List.mem_append.1
                    (by simpa using hx :
                      x ∈ (e1 :: es1) ++ [(⟨ts, .roundEnd⟩ : Event)]) with hx1 | hx2
                  · exact hs3 r' hr1 x hx1
                  · rw [List.mem_singleton.1 hx2]
                    exact (hIb.1 r' hr1).2
                · rw [List.mem_singleton.1 hr2]
                  exact hhead_le x hx

theorem replay_preserves_inv (es : List Event) (m m' : MatchInProgress)
    (b : Nat) (hI : InvOk m b)
    (hsorted : List.Sorted (· ≤ ·) (es.map Event.timestamp))
    (hb : ∀ e ∈ es, b ≤ e.timestamp)
    (h : replayEvents es m = .ok m') : ∃ b', InvOk m' b' := by
  induction es generalizing m b with
  | nil =>
      simp only [replayEvents] at h
      injection h with h
      subst h
      exact ⟨b, hI⟩
  | cons e es2 ih =>
      simp only [replayEvents] at h
      cases himp : impact_match e m with
      | error err => rw [himp] at h; cases h
      | ok m1 =>
          rw [himp] at h
          have hI1 : InvOk m1 e.timestamp :=
            impact_preserves_inv e m m1 b hI (hb e (List.mem_cons_self _ _)) himp
          rw [List.map_cons] at hsorted
          have hrest := List.sorted_cons.1 hsorted
          refine ih m1 e.timestamp hI1 hrest.2 ?_ h
          intro e' he'
          exact hrest.1 e'.timestamp (List.mem_map_of_mem Event.timestamp he')

/-- Claim C3, counterexample: replaying a log whose timestamps decrease
(`RoundStart` at 2 then `RoundEnd` at 1) yields a match report whose single
round has start time 2 and end time 1, violating start ≤ end. -/
theorem c3_counterexample :
    (completed_match_report c3BadEvents).toOption.map
        (fun rep => rep.rounds.map fun r => (r.start_time, r.end_time)) =
      some [(2, 1)] ∧ ¬(2 ≤ 1) :=
  ⟨rfl, by decide⟩

/-- Claim C3 (amended): for every event sequence whose timestamps are
non-decreasing — the order guaranteed for a log file read top to bottom —
every match report produced by the replay has its round reports in
non-decreasing start-time order and each round satisfies
start_time ≤ end_time. -/
theorem c3_sorted_reports (es : List Event) (rep : MatchReport)
    (hsorted : List.Sorted (· ≤ ·) (es.map Event.timestamp))
    (h : completed_match_report es = .ok rep) :
    List.Sorted (· ≤ ·) (rep.rounds.map RoundReport.start_time) ∧
    ∀ r ∈ rep.rounds, r.start_time ≤ r.end_time := by
  unfold completed_match_report at h
  cases hr : replayEvents es MatchInProgress.init with
  | error err => rw [hr] at h; cases h
  | ok m =>
      rw [hr] at h
      have hinit : InvOk MatchInProgress.init 0 := by
        refine ⟨fun r hrr => absurd hrr (List.not_mem_nil r), ?_, ?_⟩
        · exact List.sorted_nil
        · intro rp hrp
          cases hrp
      obtain ⟨b', hI⟩ := replay_preserves_inv es MatchInProgress.init m 0 hinit
        hsorted (fun e _ => Nat.zero_le e.timestamp) hr
      replace h : get_match_report m = .ok rep := h
      unfold get_match_report at h
      by_cases hcond : (m.ended || !m.started) = true
      · rw [if_pos hcond] at h
        injection h with h
        subst h
        exact ⟨hI.2.1, fun r hrr => (hI.1 r hrr).1⟩
      · rw [if_neg hcond] at h
        cases h

/-- Claim C3 witness: the chronologically ordered two-round log
`c3GoodEvents` replays to `c3GoodReport`, whose rounds (1,2) and (3,4) are
ordered by start time and each satisfy start ≤ end. -/
theorem c3_witness :
    List.Sorted (· ≤ ·) (c3GoodEvents.map Event.timestamp) ∧
    completed_match_report c3GoodEvents = .ok c3GoodReport ∧
    (List.Sorted (· ≤ ·) (c3GoodReport.rounds.map RoundReport.start_time) ∧
     ∀ r ∈ c3GoodReport.rounds, r.start_time ≤ r.end_time) :=
  ⟨by decide, rfl, c3_sorted_reports c3GoodEvents c3GoodReport (by decide) rfl⟩
